import Mathlib

/-!
Verification of the on-chip interconnect modelling repository.

The development shallowly embeds the two source files:

* `generate_table.py` — deterministic dimension-order ("XY") routing with a
  fixed shortcut-override map, emitting a complete routing table for a fixed
  8 x 4 mesh (namespace `GenTable`);
* `dashboard.py` — mesh topology construction, random small-world shortcut
  augmentation, synthetic workload generation, and a hop-count simulation
  engine (namespace `Dashboard`).

Machine integers are modelled as `Nat`; Python floats produced by the two
divisions in the simulator are modelled as exact rationals (`ℚ`).  Randomness
(`random.sample` on the module-global PRNG) is modelled as an explicit
deterministic stream of outcomes supplied as an argument.  The library call
`nx.shortest_path` is modelled as an oracle argument returning an optional
path (`none` models the `NetworkXNoPath` exception).
-/

/-- Absolute difference of two naturals, modelling Python `abs(a - b)` on
grid coordinates. -/
def natAbsDiff (a b : Nat) : Nat := (a - b) + (b - a)

namespace GenTable

/-- Source line `W, H = 8, 4`: the fixed mesh dimensions. -/
def W : Nat := 8

/-- Source line `W, H = 8, 4`: the fixed mesh dimensions. -/
def H : Nat := 4

/-- Source line `N, E, S, WDIR, L = 0, 1, 2, 3, 4`: the port identifiers. -/
def N : Nat := 0

/-- East port. -/
def E : Nat := 1

/-- South port. -/
def S : Nat := 2

/-- West port (named `WDIR` in the source to avoid clashing with the width `W`). -/
def WDIR : Nat := 3

/-- Local port. -/
def L : Nat := 4

/-- Source `shortcut_ports` dict: unordered node-index pairs mapped to
dedicated ports, in declaration order. -/
def shortcut_ports : List ((Nat × Nat) × Nat) :=
  [((0, 31), 5), ((7, 24), 6), ((12, 20), 7), ((4, 28), 8)]

/-- Source `def id2coord(i): return (i % W, i // W)`. -/
def id2coord (i : Nat) : Nat × Nat := (i % W, i / W)

/-- Source `xy_next_hop(src, dst)`: the dimension-order next-hop decision. -/
def xy_next_hop (src dst : Nat) : Nat :=
  let sx := (id2coord src).1
  let sy := (id2coord src).2
  let dx := (id2coord dst).1
  let dy := (id2coord dst).2
  if src = dst then L
  else if dx > sx then E
  else if dx < sx then WDIR
  else if dy > sy then S
  else N

/-- The shortcut lookup performed inside the table loop: scan
`shortcut_ports` in declaration order and return the first port whose pair
matches `(s, d)` in either orientation (the source's inner `for` with
`break`). -/
def shortcutLookup (s d : Nat) : Option Nat :=
  (shortcut_ports.find? fun q =>
    (s = q.1.1 && d = q.1.2) || (s = q.1.2 && d = q.1.1)).map (fun q => q.2)

/-- One cell of the routing table: the shortcut port when one applies,
otherwise the XY decision (the body of the source's nested loop). -/
def tableCell (s d : Nat) : Nat :=
  match shortcutLookup s d with
  | some port => port
  | none => xy_next_hop s d

/-- The complete routing table emitted by the source's double loop:
row-major by source index, one entry per destination index. -/
def routingTable : List (List Nat) :=
  (List.range (W * H)).map fun s => (List.range (W * H)).map fun d => tableCell s d

/-- Moving one step from linear position `pos` in the direction given by a
port: East/West change the x coordinate (linear index plus or minus 1),
South/North change the y coordinate (linear index plus or minus `W`). -/
def stepDir (pos dir : Nat) : Nat :=
  if dir = E then pos + 1
  else if dir = WDIR then pos - 1
  else if dir = S then pos + W
  else if dir = N then pos - W
  else pos

/-- Iterate the XY next-hop decision `n` times from `pos` toward `dst`,
moving one step in the returned direction each time. -/
def route_iter (dst : Nat) : Nat → Nat → Nat
  | 0, pos => pos
  | n + 1, pos => route_iter dst n (stepDir pos (xy_next_hop pos dst))

/-- Manhattan distance between the coordinates of two linear indices. -/
def manhattanId (s d : Nat) : Nat :=
  natAbsDiff (id2coord s).1 (id2coord d).1 + natAbsDiff (id2coord s).2 (id2coord d).2

/-- C2: for every pair of positions inside the W x H grid, iterating the
dimension-order next-hop decision from the current position toward a fixed
destination, moving one step in the returned direction each time, reaches the
destination in exactly `|dx| + |dy|` steps (and in no fewer), at which point
the function returns `Local`. -/
theorem C2_xy_routing_reaches_destination : ∀ s < W * H, ∀ d < W * H,
    route_iter d (manhattanId s d) s = d ∧
    (∀ m < manhattanId s d, route_iter d m s ≠ d) ∧
    xy_next_hop (route_iter d (manhattanId s d) s) d = L := by decide

/-- Witness for C2 at the concrete pair `s = 0`, `d = 31`. -/
theorem C2_xy_routing_reaches_destination_witness :
    0 < W * H ∧ 31 < W * H ∧
    (route_iter 31 (manhattanId 0 31) 0 = 31 ∧
     (∀ m < manhattanId 0 31, route_iter 31 m 0 ≠ 31) ∧
     xy_next_hop (route_iter 31 (manhattanId 0 31) 0) 31 = L) :=
  ⟨by decide, by decide, C2_xy_routing_reaches_destination 0 (by decide) 31 (by decide)⟩

/-- C3: for every ordered pair `(s, d)` whose unordered pair is configured in
the shortcut map (in either orientation), the routing-table cell `[s][d]`
equals the configured port, the shortcut lookup succeeds with that port in
both orientations, and hence the dimension-order decision is never used for
that cell. -/
theorem C3_shortcut_overrides_take_precedence : ∀ q ∈ shortcut_ports,
    (routingTable.getD q.1.1 []).getD q.1.2 99 = q.2 ∧
    (routingTable.getD q.1.2 []).getD q.1.1 99 = q.2 ∧
    shortcutLookup q.1.1 q.1.2 = some q.2 ∧
    shortcutLookup q.1.2 q.1.1 = some q.2 := by decide

/-- Witness for C3 at the first configured shortcut pair `(0, 31) ↦ 5`. -/
theorem C3_shortcut_overrides_take_precedence_witness :
    ((0, 31), 5) ∈ shortcut_ports ∧
    ((routingTable.getD 0 []).getD 31 99 = 5 ∧
     (routingTable.getD 31 []).getD 0 99 = 5 ∧
     shortcutLookup 0 31 = some 5 ∧
     shortcutLookup 31 0 = some 5) :=
  ⟨by decide, C3_shortcut_overrides_take_precedence ((0, 31), 5) (by decide)⟩

/-- C7: the synthesized routing table has exactly `W*H` rows of exactly `W*H`
port identifiers each, every diagonal cell equals the `Local` port, the port
identifiers are the fixed integers `North = 0, East = 1, South = 2, West = 3,
Local = 4`, and the shortcut ports are the sequential integers starting at 5
in declaration order of their pairs. -/
theorem C7_routing_table_shape_and_ports :
    routingTable.length = W * H ∧
    (∀ row ∈ routingTable, row.length = W * H) ∧
    (∀ i < W * H, (routingTable.getD i []).getD i 99 = L) ∧
    N = 0 ∧ E = 1 ∧ S = 2 ∧ WDIR = 3 ∧ L = 4 ∧
    shortcut_ports.map (fun q => q.2) = [5, 6, 7, 8] := by decide

end GenTable

namespace Dashboard

/-- Identity of a mesh node: a 2-D integer grid coordinate `(row, col)`, as
produced by `nx.grid_2d_graph`. -/
abbrev Node := Nat × Nat

/-- Manhattan distance between two nodes, `abs(u[0]-v[0]) + abs(u[1]-v[1])`
in the source. -/
def manhattan (u v : Node) : Nat := natAbsDiff u.1 v.1 + natAbsDiff u.2 v.2

/-- Total order on nodes used to store each undirected edge exactly once in a
canonical orientation (the networkx `Graph` stores an undirected edge once,
reachable from both endpoints). -/
def nodeLe (u v : Node) : Bool := decide (u.1 < v.1 ∨ (u.1 = v.1 ∧ u.2 ≤ v.2))

/-- Canonical representative of the undirected edge between `u` and `v`. -/
def mkEdge (u v : Node) : Node × Node := if nodeLe u v then (u, v) else (v, u)

/-- An undirected simple graph (networkx `Graph`): a node set plus a set of
undirected edges, each stored once in canonical orientation. -/
structure Topology where
  nodes : Finset Node
  edges : Finset (Node × Node)
deriving DecidableEq

/-- Node set of `nx.grid_2d_graph(rows, cols)`: all coordinates `(r, c)` with
`r < rows` and `c < cols`. -/
def meshNodes (rows cols : Nat) : Finset Node :=
  Finset.range rows ×ˢ Finset.range cols

/-- Horizontal mesh edges of `nx.grid_2d_graph`: `(r, c) — (r, c+1)` for all
in-bounds coordinates. -/
def meshEdgesH (rows cols : Nat) : Finset (Node × Node) :=
  (Finset.range rows ×ˢ Finset.range (cols - 1)).image fun p => ((p.1, p.2), (p.1, p.2 + 1))

/-- Vertical mesh edges of `nx.grid_2d_graph`: `(r, c) — (r+1, c)` for all
in-bounds coordinates. -/
def meshEdgesV (rows cols : Nat) : Finset (Node × Node) :=
  (Finset.range (rows - 1) ×ˢ Finset.range cols).image fun p => ((p.1, p.2), (p.1 + 1, p.2))

/-- Source `create_mesh_topology(rows, cols)`: the standard 2-D mesh produced
by `nx.grid_2d_graph(rows, cols)`. -/
def create_mesh_topology (rows cols : Nat) : Topology :=
  ⟨meshNodes rows cols, meshEdgesH rows cols ∪ meshEdgesV rows cols⟩

/-- Source guard `len(list(nx.non_edges(new_graph))) == 0`: true exactly when
every unordered pair of distinct nodes already carries an edge. -/
def noNonEdges (nodes : Finset Node) (es : Finset (Node × Node)) : Bool :=
  decide (∀ u ∈ nodes, ∀ v ∈ nodes, u ≠ v → mkEdge u v ∈ es)

/-- The `while` loop of `add_small_world_links`, with the stream `cs` of
`random.sample(nodes, 2)` outcomes made an explicit argument and an explicit
fuel bound; `none` means the loop has not finished within `fuel` iterations.
The state is the current edge set `es`, the `added_edges` counter and the
index `idx` of the next sample to draw.  Each iteration first tests the
saturation guard, then accepts the sampled pair iff it is not already an edge
and its Manhattan distance exceeds 1. -/
def swLoop (nodes : Finset Node) (count : Nat) (cs : Nat → Node × Node) :
    Nat → Finset (Node × Node) → Nat → Nat → Option (Finset (Node × Node))
  | 0, _, _, _ => none
  | fuel + 1, es, added, idx =>
    if count ≤ added then some es
    else if noNonEdges nodes es then some es
    else if mkEdge (cs idx).1 (cs idx).2 ∉ es ∧ manhattan (cs idx).1 (cs idx).2 > 1 then
      swLoop nodes count cs fuel (insert (mkEdge (cs idx).1 (cs idx).2) es) (added + 1) (idx + 1)
    else
      swLoop nodes count cs fuel es added (idx + 1)

/-- Source `add_small_world_links(graph, num_shortcuts)`: the input graph is
copied first (`graph.copy()`), so the embedding returns a new topology and
the argument is untouched; the loop starts from the copy's edge set with
`added_edges = 0`. -/
def add_small_world_links (g : Topology) (num_shortcuts : Nat)
    (cs : Nat → Node × Node) (fuel : Nat) : Option Topology :=
  (swLoop g.nodes num_shortcuts cs fuel g.edges 0 0).map fun es => ⟨g.nodes, es⟩

/-- Eligible shortcut pairs of a graph: canonical representatives of the
unordered pairs of distinct nodes that are not an existing edge and whose
endpoints lie at Manhattan distance greater than 1. -/
def eligiblePairs (nodes : Finset Node) (es : Finset (Node × Node)) : Finset (Node × Node) :=
  ((nodes ×ˢ nodes).filter fun p => mkEdge p.1 p.2 ∉ es ∧ manhattan p.1 p.2 > 1).image
    fun p => mkEdge p.1 p.2

end Dashboard

namespace Dashboard

theorem meshNodes_card (rows cols : Nat) : (meshNodes rows cols).card = rows * cols := by
  simp [meshNodes]

theorem meshEdgesH_card (rows cols : Nat) : (meshEdgesH rows cols).card = rows * (cols - 1) := by
  rw [meshEdgesH, Finset.card_image_of_injective, Finset.card_product, Finset.card_range,
    Finset.card_range]
  intro p q h
  rcases p with ⟨a, b⟩
  rcases q with ⟨c, d⟩
  simp_all

theorem meshEdgesV_card (rows cols : Nat) : (meshEdgesV rows cols).card = (rows - 1) * cols := by
  rw [meshEdgesV, Finset.card_image_of_injective, Finset.card_product, Finset.card_range,
    Finset.card_range]
  intro p q h
  rcases p with ⟨a, b⟩
  rcases q with ⟨c, d⟩
  simp_all

theorem meshEdges_disjoint (rows cols : Nat) :
    Disjoint (meshEdgesH rows cols) (meshEdgesV rows cols) := by
  rw [Finset.disjoint_left]
  intro e heH heV
  simp only [meshEdgesH, meshEdgesV, Finset.mem_image, Finset.mem_product, Finset.mem_range] at heH heV
  obtain ⟨p, _, hp⟩ := heH
  obtain ⟨q, _, hq⟩ := heV
  rw [← hq] at hp
  simp [Prod.ext_iff] at hp
  omega

theorem pair_mem_meshEdges (rows cols a b c d : Nat) :
    ((a, b), (c, d)) ∈ meshEdgesH rows cols ∪ meshEdgesV rows cols ↔
      ((a < rows ∧ b + 1 < cols ∧ c = a ∧ d = b + 1) ∨
       (a + 1 < rows ∧ b < cols ∧ c = a + 1 ∧ d = b)) := by
  simp only [Finset.mem_union, meshEdgesH, meshEdgesV, Finset.mem_image, Finset.mem_product,
    Finset.mem_range]
  constructor
  · rintro (⟨⟨x, y⟩, ⟨hx, hy⟩, heq⟩ | ⟨⟨x, y⟩, ⟨hx, hy⟩, heq⟩) <;>
      simp only [Prod.ext_iff] at heq <;> [left; right] <;> omega
  · rintro (⟨ha, hb, hc, hd⟩ | ⟨ha, hb, hc, hd⟩)
    · exact Or.inl ⟨(a, b), ⟨ha, by omega⟩, by simp [Prod.ext_iff]; omega⟩
    · exact Or.inr ⟨(a, b), ⟨by omega, hb⟩, by simp [Prod.ext_iff]; omega⟩

theorem mem_meshEdges_iff (rows cols : Nat) (u v : Node) :
    mkEdge u v ∈ meshEdgesH rows cols ∪ meshEdgesV rows cols ↔
      (u ∈ meshNodes rows cols ∧ v ∈ meshNodes rows cols ∧ manhattan u v = 1) := by
  rcases u with ⟨a, b⟩
  rcases v with ⟨c, d⟩
  simp only [meshNodes, Finset.mem_product, Finset.mem_range, manhattan, natAbsDiff]
  unfold mkEdge nodeLe
  by_cases hle : ((a, b) : Node).1 < ((c, d) : Node).1 ∨
      (((a, b) : Node).1 = ((c, d) : Node).1 ∧ ((a, b) : Node).2 ≤ ((c, d) : Node).2)
  · rw [if_pos (by simpa using hle)]
    rw [pair_mem_meshEdges]
    simp only at hle ⊢
    omega
  · rw [if_neg (by simpa using hle)]
    rw [pair_mem_meshEdges]
    simp only at hle ⊢
    omega

end Dashboard

namespace Dashboard

/-- C6: for all dimensions `rows, cols ≥ 1`, `create_mesh_topology` returns a
topology with exactly `rows*cols` nodes and exactly
`rows*(cols-1) + cols*(rows-1)` edges, the edges being precisely the
grid-adjacent (Manhattan distance 1) pairs of in-bounds nodes — hence no
diagonals, no wraparound, and (the edge set being a set of canonical
representatives) no duplicates. -/
theorem C6_build_mesh_counts (rows cols : Nat) (hr : 1 ≤ rows) (hc : 1 ≤ cols) :
    (create_mesh_topology rows cols).nodes.card = rows * cols ∧
    (create_mesh_topology rows cols).edges.card = rows * (cols - 1) + cols * (rows - 1) ∧
    ∀ u v : Node, mkEdge u v ∈ (create_mesh_topology rows cols).edges ↔
      (u ∈ (create_mesh_topology rows cols).nodes ∧
       v ∈ (create_mesh_topology rows cols).nodes ∧ manhattan u v = 1) := by
  refine ⟨meshNodes_card rows cols, ?_, fun u v => mem_meshEdges_iff rows cols u v⟩
  show (meshEdgesH rows cols ∪ meshEdgesV rows cols).card = _
  rw [Finset.card_union_of_disjoint (meshEdges_disjoint rows cols), meshEdgesH_card,
    meshEdgesV_card]
  ring

/-- Witness for C6 at the concrete dimensions `rows = 2`, `cols = 3`. -/
theorem C6_build_mesh_counts_witness :
    1 ≤ 2 ∧ 1 ≤ 3 ∧
    ((create_mesh_topology 2 3).nodes.card = 2 * 3 ∧
     (create_mesh_topology 2 3).edges.card = 2 * (3 - 1) + 3 * (2 - 1) ∧
     ∀ u v : Node, mkEdge u v ∈ (create_mesh_topology 2 3).edges ↔
       (u ∈ (create_mesh_topology 2 3).nodes ∧
        v ∈ (create_mesh_topology 2 3).nodes ∧ manhattan u v = 1)) :=
  ⟨by decide, by decide, C6_build_mesh_counts 2 3 (by decide) (by decide)⟩

end Dashboard

namespace Dashboard

theorem manhattan_self (u : Node) : manhattan u u = 0 := by
  simp [manhattan, natAbsDiff]

theorem swLoop_spec (nodes : Finset Node) (k : Nat) (cs : Nat → Node × Node)
    (hcs : ∀ i, (cs i).1 ∈ nodes ∧ (cs i).2 ∈ nodes)
    (es0 : Finset (Node × Node)) (hk : k ≤ (eligiblePairs nodes es0).card) :
    ∀ fuel es added idx out,
      es0 ⊆ es → es.card = es0.card + added →
      es \ es0 ⊆ eligiblePairs nodes es0 → added ≤ k →
      swLoop nodes k cs fuel es added idx = some out →
      es0 ⊆ out ∧ out.card = es0.card + k ∧ out \ es0 ⊆ eligiblePairs nodes es0 := by
  intro fuel
  induction fuel with
  | zero =>
    intro es added idx out _ _ _ _ h
    exact absurd h (by simp [swLoop])
  | succ f ih =>
    intro es added idx out hsub hcard hdiff hle hrun
    rw [swLoop] at hrun
    split_ifs at hrun with h1 h2 h3
    · -- added_edges has reached count: the loop returns the current edge set
      obtain rfl : es = out := by injection hrun
      exact ⟨hsub, by omega, hdiff⟩
    · -- saturation break: impossible while added < k ≤ number of eligible pairs
      exfalso
      have hElig : eligiblePairs nodes es0 ⊆ es \ es0 := by
        intro e he
        simp only [eligiblePairs, Finset.mem_image, Finset.mem_filter, Finset.mem_product] at he
        obtain ⟨p, ⟨⟨hp1, hp2⟩, hnotin, hdist⟩, rfl⟩ := he
        have hne : p.1 ≠ p.2 := by
          intro hpe
          rw [hpe, manhattan_self] at hdist
          omega
        have hmem : mkEdge p.1 p.2 ∈ es := by
          have := of_decide_eq_true h2
          exact this p.1 hp1 p.2 hp2 hne
        exact Finset.mem_sdiff.mpr ⟨hmem, hnotin⟩
      have hc1 : (es \ es0).card = added := by
        rw [Finset.card_sdiff hsub]
        omega
      have := Finset.card_le_card hElig
      omega
    · -- eligible sample: one edge is inserted and added_edges increments
      refine ih (insert (mkEdge (cs idx).1 (cs idx).2) es) (added + 1) (idx + 1) out
        (hsub.trans (Finset.subset_insert _ _)) ?_ ?_ (by omega) hrun
      · rw [Finset.card_insert_of_not_mem h3.1]
        omega
      · intro e he
        rw [Finset.mem_sdiff, Finset.mem_insert] at he
        rcases he with ⟨he | he, hnot0⟩
        · subst he
          simp only [eligiblePairs, Finset.mem_image]
          refine ⟨cs idx, ?_, rfl⟩
          rw [Finset.mem_filter, Finset.mem_product]
          exact ⟨⟨(hcs idx).1, (hcs idx).2⟩, hnot0, h3.2⟩
        · exact hdiff (Finset.mem_sdiff.mpr ⟨he, hnot0⟩)
    · -- rejected sample: state unchanged
      exact ih es added (idx + 1) out hsub hcard hdiff hle hrun

end Dashboard

namespace Dashboard

/-- C4: for every topology and every requested count `k` not exceeding the
number of eligible pairs (node pairs that are neither an existing edge nor at
Manhattan distance ≤ 1), whenever `add_small_world_links` terminates it
returns a topology over the same nodes whose edge set is the input's edge set
plus exactly `k` new edges, each joining nodes at Manhattan distance > 1 and
absent from the input; the edge set being a `Finset` of canonical
representatives, no duplicate arises, and the input topology itself —
copied by `graph.copy()` in the source, a value in this embedding — is left
unmodified. -/
theorem C4_add_shortcuts_exactly_k (g : Topology) (k : Nat) (cs : Nat → Node × Node)
    (hcs : ∀ i, (cs i).1 ∈ g.nodes ∧ (cs i).2 ∈ g.nodes)
    (hk : k ≤ (eligiblePairs g.nodes g.edges).card) (fuel : Nat) (out : Topology)
    (hrun : add_small_world_links g k cs fuel = some out) :
    out.nodes = g.nodes ∧ g.edges ⊆ out.edges ∧ out.edges.card = g.edges.card + k ∧
    ∀ e ∈ out.edges, e ∉ g.edges →
      ∃ u ∈ g.nodes, ∃ v ∈ g.nodes, e = mkEdge u v ∧ mkEdge u v ∉ g.edges ∧ manhattan u v > 1 := by
  obtain ⟨es, hes, rfl⟩ :
      ∃ es, swLoop g.nodes k cs fuel g.edges 0 0 = some es ∧ out = ⟨g.nodes, es⟩ := by
    unfold add_small_world_links at hrun
    cases h : swLoop g.nodes k cs fuel g.edges 0 0 with
    | none => rw [h] at hrun; simp at hrun
    | some es =>
      rw [h] at hrun
      simp at hrun
      exact ⟨es, rfl, hrun.symm⟩
  have hspec := swLoop_spec g.nodes k cs hcs g.edges hk fuel g.edges 0 0 es
    (Finset.Subset.refl _) (by omega) (by simp) (by omega) hes
  refine ⟨rfl, hspec.1, hspec.2.1, ?_⟩
  intro e he hnot
  have hmem := hspec.2.2 (Finset.mem_sdiff.mpr ⟨he, hnot⟩)
  simp only [eligiblePairs, Finset.mem_image, Finset.mem_filter, Finset.mem_product] at hmem
  obtain ⟨p, ⟨⟨hp1, hp2⟩, hni, hdist⟩, rfl⟩ := hmem
  exact ⟨p.1, hp1, p.2, hp2, rfl, hni, hdist⟩

/-- The 1 x 3 mesh used as concrete input for the C4 witness. -/
def mesh13 : Topology := create_mesh_topology 1 3

/-- Constant sample stream always proposing the eligible pair
`(0,0) — (0,2)`. -/
def cs13 : Nat → Node × Node := fun _ => ((0, 0), (0, 2))

/-- The 1 x 3 mesh augmented with the single shortcut `(0,0) — (0,2)`. -/
def out13 : Topology := ⟨mesh13.nodes, insert ((0, 0), (0, 2)) mesh13.edges⟩

/-- Witness for C4 on a concrete terminating run over the 1 x 3 mesh. -/
theorem C4_add_shortcuts_exactly_k_witness :
    (∀ i, (cs13 i).1 ∈ mesh13.nodes ∧ (cs13 i).2 ∈ mesh13.nodes) ∧
    1 ≤ (eligiblePairs mesh13.nodes mesh13.edges).card ∧
    add_small_world_links mesh13 1 cs13 3 = some out13 ∧
    (out13.nodes = mesh13.nodes ∧ mesh13.edges ⊆ out13.edges ∧
     out13.edges.card = mesh13.edges.card + 1 ∧
     ∀ e ∈ out13.edges, e ∉ mesh13.edges →
       ∃ u ∈ mesh13.nodes, ∃ v ∈ mesh13.nodes,
         e = mkEdge u v ∧ mkEdge u v ∉ mesh13.edges ∧ manhattan u v > 1) :=
  ⟨fun _ => show ((0, 0) : Node) ∈ mesh13.nodes ∧ ((0, 2) : Node) ∈ mesh13.nodes by decide,
   by decide, by decide,
   C4_add_shortcuts_exactly_k mesh13 1 cs13
     (fun _ => show ((0, 0) : Node) ∈ mesh13.nodes ∧ ((0, 2) : Node) ∈ mesh13.nodes by decide)
     (by decide) 3 out13 (by decide)⟩

/-- The two-node, zero-edge topology whose single candidate pair is
mesh-adjacent: a non-edge exists, so the saturation guard never fires, yet no
sample is ever accepted. -/
def twoNodes : Finset Node := {(0, 0), (0, 1)}

/-- C5: the augmentation loop does not terminate on every input.  On the
two-node edgeless graph, requesting one shortcut, every `random.sample`
outcome is the adjacent pair `(0,0), (0,1)` (in this orientation), which the
distance test rejects forever, while the `non_edges`-emptiness guard never
fires because that same pair is a non-edge; the loop exhausts any fuel
bound. -/
theorem C5_loop_can_run_forever :
    ∀ fuel idx, swLoop twoNodes 1 (fun _ => ((0, 0), (0, 1))) fuel ∅ 0 idx = none := by
  intro fuel
  induction fuel with
  | zero => intro idx; rfl
  | succ f ih =>
    intro idx
    rw [swLoop]
    rw [if_neg (by omega), if_neg (by decide), if_neg (by decide)]
    exact ih (idx + 1)

end Dashboard

namespace Dashboard

/-- Source class `Packet`: fields as set by `__init__` (`end_time` and
`hop_count` are initialized to 0 and, in the source, never reassigned).
Python numeric times are modelled as exact rationals. -/
structure Packet where
  id : Nat
  source : Node
  destination : Node
  start_time : ℚ
  end_time : ℚ
  hop_count : Nat
deriving DecidableEq

/-- One entry of `simulate_network`'s `results` list:
`{"packet_id": ..., "latency": ..., "hop_count": ...}`. -/
structure SimResult where
  packet_id : Nat
  latency : ℚ
  hop_count : Nat
deriving DecidableEq

/-- The summary dict returned by `simulate_network`. -/
structure Summary where
  topology_name : String
  average_latency : ℚ
  throughput_pps : ℚ
deriving DecidableEq

/-- The `for packet in workload` loop of `simulate_network`, in accumulator
form: state is `(results, simulation_end_time, packets_delivered)`.  The
argument `route` models the library call `nx.shortest_path(topology, source,
target)`, returning the node path or `none` for the `NetworkXNoPath`
exception, in which case the packet is silently dropped. -/
def simLoop (route : Node → Node → Option (List Node)) (latency_per_hop : ℚ) :
    List Packet → List SimResult × ℚ × Nat → List SimResult × ℚ × Nat
  | [], acc => acc
  | pkt :: rest, acc =>
    match route pkt.source pkt.destination with
    | none => simLoop route latency_per_hop rest acc
    | some path =>
      simLoop route latency_per_hop rest
        (acc.1 ++ [⟨pkt.id, ((path.length - 1 : Nat) : ℚ) * latency_per_hop, path.length - 1⟩],
         max acc.2.1 (pkt.start_time + ((path.length - 1 : Nat) : ℚ) * latency_per_hop),
         acc.2.2 + 1)

/-- Source `simulate_network(topology, workload, latency_per_hop,
topology_name)`: run the loop from the empty state, then compute
`average_latency` (guarded against an empty results list) and `throughput`
(guarded against a zero end time, and reported scaled by 1e9). -/
def simulate_network (route : Node → Node → Option (List Node)) (workload : List Packet)
    (latency_per_hop : ℚ) (topology_name : String) : Summary × List SimResult :=
  let out := simLoop route latency_per_hop workload ([], 0, 0)
  let average_latency : ℚ :=
    if out.1 = [] then 0 else ((out.1.map fun r => r.latency).sum) / (out.1.length : ℚ)
  let throughput : ℚ := if out.2.1 > 0 then (out.2.2 : ℚ) / out.2.1 else 0
  (⟨topology_name, average_latency, throughput * 1000000000⟩, out.1)

/-- Post-run packet states: the source loop reads `packet.source`,
`packet.destination`, `packet.start_time` and `packet.id` but assigns to no
packet attribute in either the delivery branch or the `NetworkXNoPath`
branch, so each packet leaves the loop exactly as it entered. -/
def packets_after_simulate (route : Node → Node → Option (List Node)) (latency_per_hop : ℚ) :
    List Packet → List Packet
  | [] => []
  | pkt :: rest =>
    match route pkt.source pkt.destination with
    | some _ => pkt :: packets_after_simulate route latency_per_hop rest
    | none => pkt :: packets_after_simulate route latency_per_hop rest

/-- Hop counts of the delivered packets of a workload, in workload order
(`len(path) - 1` per delivered packet). -/
def deliveredHops (route : Node → Node → Option (List Node)) (wl : List Packet) : List Nat :=
  wl.filterMap fun p => (route p.source p.destination).map fun path => path.length - 1

/-- Per-packet results of the delivered packets, in workload order. -/
def deliveredResults (route : Node → Node → Option (List Node)) (latency_per_hop : ℚ)
    (wl : List Packet) : List SimResult :=
  wl.filterMap fun p => (route p.source p.destination).map fun path =>
    ⟨p.id, ((path.length - 1 : Nat) : ℚ) * latency_per_hop, path.length - 1⟩

/-- Per-packet end times (`start_time + hop_count * latency_per_hop`) of the
delivered packets, in workload order. -/
def deliveredTimes (route : Node → Node → Option (List Node)) (latency_per_hop : ℚ)
    (wl : List Packet) : List ℚ :=
  wl.filterMap fun p => (route p.source p.destination).map fun path =>
    p.start_time + ((path.length - 1 : Nat) : ℚ) * latency_per_hop

/-- The final `simulation_end_time`: the running maximum, starting from 0, of
the delivered packets' end times. -/
def deliveredEndTime (route : Node → Node → Option (List Node)) (latency_per_hop : ℚ)
    (wl : List Packet) : ℚ :=
  (deliveredTimes route latency_per_hop wl).foldl max 0

theorem simLoop_eq (route : Node → Node → Option (List Node)) (lph : ℚ) :
    ∀ (wl : List Packet) (rs : List SimResult) (t : ℚ) (n : Nat),
      simLoop route lph wl (rs, t, n) =
        (rs ++ deliveredResults route lph wl, (deliveredTimes route lph wl).foldl max t,
         n + (deliveredResults route lph wl).length) := by
  intro wl
  induction wl with
  | nil => intro rs t n; simp [simLoop, deliveredResults, deliveredTimes]
  | cons pkt rest ih =>
    intro rs t n
    cases hroute : route pkt.source pkt.destination with
    | none =>
      simp [simLoop, hroute, deliveredResults, deliveredTimes, List.filterMap_cons, ih]
    | some path =>
      simp [simLoop, hroute, deliveredResults, deliveredTimes, List.filterMap_cons, ih,
        Prod.ext_iff]
      all_goals omega

end Dashboard

namespace Dashboard

theorem simulate_network_eq (route : Node → Node → Option (List Node)) (wl : List Packet)
    (lph : ℚ) (name : String) :
    simulate_network route wl lph name =
      (⟨name,
        if deliveredResults route lph wl = [] then 0
        else ((deliveredResults route lph wl).map fun r => r.latency).sum /
          ((deliveredResults route lph wl).length : ℚ),
        (if deliveredEndTime route lph wl > 0
         then ((deliveredResults route lph wl).length : ℚ) / deliveredEndTime route lph wl
         else 0) * 1000000000⟩,
       deliveredResults route lph wl) := by
  unfold simulate_network deliveredEndTime
  rw [simLoop_eq]
  simp

theorem deliveredResults_map_latency (route : Node → Node → Option (List Node)) (lph : ℚ) :
    ∀ wl, ((deliveredResults route lph wl).map fun r => r.latency) =
      (deliveredHops route wl).map fun hc => (hc : ℚ) * lph := by
  intro wl
  induction wl with
  | nil => rfl
  | cons p rest ih =>
    cases h : route p.source p.destination <;>
      simp [deliveredResults, deliveredHops, List.filterMap_cons, h] <;>
      simpa [deliveredResults, deliveredHops] using ih

theorem deliveredResults_length (route : Node → Node → Option (List Node)) (lph : ℚ) :
    ∀ wl, (deliveredResults route lph wl).length = (deliveredHops route wl).length := by
  intro wl
  induction wl with
  | nil => rfl
  | cons p rest ih =>
    cases h : route p.source p.destination <;>
      simp [deliveredResults, deliveredHops, List.filterMap_cons, h] <;>
      simpa [deliveredResults, deliveredHops] using ih

theorem deliveredTimes_length (route : Node → Node → Option (List Node)) (lph : ℚ) :
    ∀ wl, (deliveredTimes route lph wl).length = (deliveredHops route wl).length := by
  intro wl
  induction wl with
  | nil => rfl
  | cons p rest ih =>
    cases h : route p.source p.destination <;>
      simp [deliveredTimes, deliveredHops, List.filterMap_cons, h] <;>
      simpa [deliveredTimes, deliveredHops] using ih

/-- C1: for every topology (entering through its shortest-path oracle), every
workload and every positive latency-per-hop, the returned summary's
average latency is the arithmetic mean over delivered packets of
`hop_count * latency_per_hop` (0 when no packet is delivered), and its
throughput is `packets_delivered / simulation_end_time` scaled by `10^9` when
the simulation end time is positive (0 otherwise); for an empty or
fully-undeliverable workload both fields are 0, and the function is total, so
no error is raised. -/
theorem C1_simulate_metrics (route : Node → Node → Option (List Node)) (wl : List Packet)
    (lph : ℚ) (hlph : 0 < lph) (name : String) :
    ((simulate_network route wl lph name).1.average_latency =
      if (deliveredHops route wl).length = 0 then 0
      else ((deliveredHops route wl).map fun hc => (hc : ℚ) * lph).sum /
        ((deliveredHops route wl).length : ℚ)) ∧
    ((simulate_network route wl lph name).1.throughput_pps =
      if 0 < deliveredEndTime route lph wl
      then ((deliveredHops route wl).length : ℚ) / deliveredEndTime route lph wl * 10 ^ 9
      else 0) ∧
    (deliveredHops route wl = [] →
      (simulate_network route wl lph name).1.average_latency = 0 ∧
      (simulate_network route wl lph name).1.throughput_pps = 0) := by
  have hlen := deliveredResults_length route lph wl
  have htlen := deliveredTimes_length route lph wl
  have hempty : deliveredResults route lph wl = [] ↔ (deliveredHops route wl).length = 0 := by
    rw [← hlen, List.length_eq_zero]
  refine ⟨?_, ?_, ?_⟩
  · rw [simulate_network_eq]
    by_cases h : (deliveredHops route wl).length = 0
    · simp [hempty.mpr h, h]
    · show (if deliveredResults route lph wl = [] then (0 : ℚ) else _) = _
      rw [if_neg (fun he => h (hempty.mp he)), if_neg h,
        deliveredResults_map_latency, hlen]
  · rw [simulate_network_eq]
    show (if deliveredEndTime route lph wl > 0 then _ else (0 : ℚ)) * 1000000000 = _
    by_cases h : 0 < deliveredEndTime route lph wl
    · rw [if_pos h, if_pos h, hlen]
      norm_num
    · rw [if_neg h, if_neg h]
      ring
  · intro h
    have h0 : (deliveredHops route wl).length = 0 := by rw [h]; rfl
    have ht0 : deliveredEndTime route lph wl = 0 := by
      have h1 : deliveredTimes route lph wl = [] := by
        rw [← List.length_eq_zero, htlen, h0]
      rw [deliveredEndTime, h1]
      rfl
    constructor
    · rw [simulate_network_eq]
      show (if deliveredResults route lph wl = [] then (0 : ℚ) else _) = 0
      rw [if_pos (hempty.mpr h0)]
    · rw [simulate_network_eq]
      show (if deliveredEndTime route lph wl > 0 then _ else (0 : ℚ)) * 1000000000 = 0
      rw [ht0]
      norm_num

end Dashboard

namespace Dashboard

/-- One `random.sample(nodes, 2)` draw: `none` models the `ValueError` raised
when the population holds fewer than two elements; otherwise two distinct
elements selected as a deterministic function of the PRNG output `r`. -/
def sample2 (nodes : List Node) (r : Nat) : Option (Node × Node) :=
  if nodes.length < 2 then none
  else
    let i := r % nodes.length
    let j0 := (r / nodes.length) % (nodes.length - 1)
    let j := if j0 < i then j0 else j0 + 1
    some (nodes.getD i (0, 0), nodes.getD j (0, 0))

/-- The `for i in range(num_packets)` loop of `generate_workload`: packet
index `i`, remaining count; a sampling error aborts the whole call (the
Python exception propagates out of the function), so no partial workload is
ever produced.  Each packet gets `start_time = i * 2` and zero-initialized
`end_time` and `hop_count`. -/
def genGo (nodes : List Node) (rs : Nat → Nat) : Nat → Nat → Except String (List Packet)
  | _, 0 => .ok []
  | i, n + 1 =>
    match sample2 nodes (rs i) with
    | none => .error "Sample larger than population or is negative"
    | some sd =>
      match genGo nodes rs (i + 1) n with
      | .ok rest => .ok (⟨i, sd.1, sd.2, (i * 2 : Nat), 0, 0⟩ :: rest)
      | .error e => .error e

/-- Source `generate_workload(num_packets, nodes)`, with the PRNG stream made
explicit. -/
def generate_workload (num_packets : Nat) (nodes : List Node) (rs : Nat → Nat) :
    Except String (List Packet) :=
  genGo nodes rs 0 num_packets

/-- C8 counterexample: with zero packets requested and an empty node list
(fewer than 2 nodes), `generate_workload` never reaches `random.sample` and
returns an empty workload without raising any error, contradicting the claim
that it fails for every requested packet count. -/
theorem C8_counterexample_zero_packets :
    generate_workload 0 [] (fun _ => 0) = Except.ok [] := rfl

/-- C8 amended: whenever at least one packet is requested and the node list
holds fewer than 2 elements, `generate_workload` fails with the sampling
error on the first draw and produces no partial workload. -/
theorem C8_fails_on_insufficient_nodes (num_packets : Nat) (nodes : List Node)
    (rs : Nat → Nat) (hn : 1 ≤ num_packets) (hlen : nodes.length < 2) :
    generate_workload num_packets nodes rs =
      Except.error "Sample larger than population or is negative" := by
  obtain ⟨m, rfl⟩ : ∃ m, num_packets = m + 1 := ⟨num_packets - 1, by omega⟩
  simp [generate_workload, genGo, sample2, hlen]

/-- Witness for C8 (amended) at one requested packet over an empty node
list. -/
theorem C8_fails_on_insufficient_nodes_witness :
    1 ≤ 1 ∧ ([] : List Node).length < 2 ∧
    generate_workload 1 [] (fun _ => 0) =
      Except.error "Sample larger than population or is negative" :=
  ⟨by decide, by decide, C8_fails_on_insufficient_nodes 1 [] (fun _ => 0) (by decide) (by decide)⟩

/-- The shortest-path oracle of a graph in which every pair is joined by the
two-node path `[s, d]` (one hop); used for concrete runs. -/
def route0 : Node → Node → Option (List Node) := fun s d => some [s, d]

/-- A one-packet workload: packet 0 from `(0,0)` to `(0,1)` at start time 0,
with `end_time` and `hop_count` zero-initialized as in `Packet.__init__`. -/
def pkt0 : Packet := ⟨0, (0, 0), (0, 1), 0, 0, 0⟩

/-- C10 counterexample: on a one-packet workload whose shortest path has one
hop, the packet emerges from the simulation with `hop_count` still 0 and
`end_time` still 0 — different from the shortest-path hop count 1 and end
time 5 the claim requires — while the outcome is recorded only in the
separate results entry `{packet_id 0, latency 5, hop_count 1}`. -/
theorem C10_counterexample_no_mutation :
    packets_after_simulate route0 5 [pkt0] = [pkt0] ∧
    pkt0.hop_count = 0 ∧ pkt0.end_time = 0 ∧
    ((route0 pkt0.source pkt0.destination).map fun path => path.length - 1) = some 1 ∧
    (simulate_network route0 [pkt0] 5 "Regular Mesh").2 = [⟨0, 5, 1⟩] := by
  refine ⟨rfl, rfl, rfl, rfl, ?_⟩
  rw [simulate_network_eq]
  show deliveredResults route0 5 [pkt0] = _
  simp only [deliveredResults, route0, pkt0, List.filterMap_cons, List.filterMap_nil,
    Option.map_some']
  norm_num

/-- C10 amended: the simulation never mutates packets — every packet leaves
the run exactly as it entered, its `end_time` and `hop_count` still holding
their initial values — and the route outcome is instead recorded in the
per-packet results list: each delivered packet contributes one result whose
hop count is its shortest-path hop count `len(path) - 1` and whose latency is
`hop_count * latency_per_hop`, while dropped packets contribute nothing. -/
theorem C10_simulate_never_mutates_packets (route : Node → Node → Option (List Node))
    (lph : ℚ) (name : String) (wl : List Packet) :
    packets_after_simulate route lph wl = wl ∧
    (simulate_network route wl lph name).2 = deliveredResults route lph wl := by
  constructor
  · induction wl with
    | nil => rfl
    | cons p rest ih =>
      cases h : route p.source p.destination <;> simp [packets_after_simulate, h, ih]
  · rw [simulate_network_eq]

end Dashboard

namespace Dashboard

/-- Witness for C1 on a concrete one-packet run delivered over a one-hop
path with latency-per-hop 5. -/
theorem C1_simulate_metrics_witness :
    (0 : ℚ) < 5 ∧
    (((simulate_network route0 [pkt0] 5 "Regular Mesh").1.average_latency =
      if (deliveredHops route0 [pkt0]).length = 0 then 0
      else ((deliveredHops route0 [pkt0]).map fun hc => (hc : ℚ) * 5).sum /
        ((deliveredHops route0 [pkt0]).length : ℚ)) ∧
    ((simulate_network route0 [pkt0] 5 "Regular Mesh").1.throughput_pps =
      if 0 < deliveredEndTime route0 5 [pkt0]
      then ((deliveredHops route0 [pkt0]).length : ℚ) / deliveredEndTime route0 5 [pkt0] * 10 ^ 9
      else 0) ∧
    (deliveredHops route0 [pkt0] = [] →
      (simulate_network route0 [pkt0] 5 "Regular Mesh").1.average_latency = 0 ∧
      (simulate_network route0 [pkt0] 5 "Regular Mesh").1.throughput_pps = 0)) :=
  ⟨by norm_num, C1_simulate_metrics route0 [pkt0] 5 (by norm_num) "Regular Mesh"⟩

/-- The node list `list(mesh_topology.nodes())` in row-major order. -/
def meshNodesList (rows cols : Nat) : List Node :=
  (List.range rows).flatMap fun r => (List.range cols).map fun c => (r, c)

/-- A seeded linear congruential generator standing in for the seeded
module-global PRNG (`random.seed(seed)` followed by successive draws): a
deterministic stream of pseudo-random naturals fully determined by the
injected seed. -/
def prng (seed : Nat) : Nat → Nat
  | 0 => (1103515245 * seed + 12345) % 2147483648
  | k + 1 => (1103515245 * prng seed k + 12345) % 2147483648

/-- Shortcut-placement sampling: the `random.sample(nodes, 2)` outcomes drawn
by `add_small_world_links`, as a function of the injected seed. -/
def pairStream (nodes : List Node) (seed : Nat) : Nat → Node × Node := fun k =>
  match sample2 nodes (prng seed k) with
  | some q => q
  | none => ((0, 0), (0, 0))

/-- One full seeded run of the dashboard pipeline for one grid size, as in
`run_simulation_for_size`: build the mesh, add small-world shortcuts,
generate the workload over the mesh node list, and simulate.  Every random
draw is a deterministic function of the injected seed; `routeOf` abstracts
the shortest-path routine applied to the augmented topology; `fuel` bounds
the augmentation loop, `none` reporting a failed run (loop cut off by fuel,
or a workload configuration error). -/
def run_pipeline (rows cols num_shortcuts num_packets fuel : Nat) (lph : ℚ)
    (routeOf : Topology → Node → Node → Option (List Node)) (seed : Nat) :
    Option (Topology × List Packet × (Summary × List SimResult)) :=
  match add_small_world_links (create_mesh_topology rows cols) num_shortcuts
      (pairStream (meshNodesList rows cols) seed) fuel with
  | none => none
  | some sw =>
    match generate_workload num_packets (meshNodesList rows cols) (prng (seed + 1)) with
    | .error _ => none
    | .ok wl => some (sw, wl, simulate_network (routeOf sw) wl lph "Small-World Mesh")

/-- C9: shortcut placement and workload source/destination sampling draw from
a PRNG fully determined by an injectable seed, so two runs of the full
pipeline with the same seed and the same parameters produce identical
topologies, workloads and simulation results. -/
theorem C9_same_seed_same_run (rows cols num_shortcuts num_packets fuel : Nat) (lph : ℚ)
    (routeOf : Topology → Node → Node → Option (List Node)) (seed1 seed2 : Nat)
    (hseed : seed1 = seed2) :
    run_pipeline rows cols num_shortcuts num_packets fuel lph routeOf seed1 =
      run_pipeline rows cols num_shortcuts num_packets fuel lph routeOf seed2 := by
  rw [hseed]

/-- Witness for C9: two seed-42 runs over the 2 x 2 mesh coincide. -/
theorem C9_same_seed_same_run_witness :
    (42 : Nat) = 42 ∧
    run_pipeline 2 2 1 2 5 5 (fun _ s d => some [s, d]) 42 =
      run_pipeline 2 2 1 2 5 5 (fun _ s d => some [s, d]) 42 :=
  ⟨rfl, C9_same_seed_same_run 2 2 1 2 5 5 (fun _ s d => some [s, d]) 42 42 rfl⟩

end Dashboard
